import Mathlib

/-
Verification development for the blink-engine safety backend.

Shallow embedding of the two core subsystems:
  * the Safety Event (SOS) lifecycle  — src/services/sos.service.ts and
    src/repositories/sos.repository.ts, with the idempotency uniqueness
    constraint of prisma/migrations/20251219145816_init (unique index on
    "idempotencyKey" of "sos_events");
  * the refresh-token rotation guard  — src/services/auth.service.ts, the
    refresh-token repository, and verifyRefreshToken of
    src/middleware/auth.middleware.ts.

Conventions of the embedding:
  * ids and user ids are Nat (the TS cuid strings are opaque identifiers);
  * timestamps are Int, in one uniform time unit;
  * latitude/longitude are Int (carried through, never computed with);
  * the database is an explicit value threaded through each operation;
  * a Prisma call that would reject (unique-constraint violation, missing
    row on update) is an explicit error value, kept distinct from the
    domain-level Result failures of the services;
  * each service call is split at its storage await points, so that an
    interleaving of two concurrent calls can be expressed by running the
    same per-step functions against the shared database in schedule order.
-/

namespace BlinkEngine

-- =========================================================================
-- SOS data model (src/repositories/sos.repository.ts)
-- =========================================================================

/-- Entry of the `notifiedContacts` JSON snapshot stored on an SOS event:
`contacts.map ((c) => ({id: c.id, name: c.name, phoneNumber: c.phoneNumber}))`. -/
structure NotifiedContact where
  id : Nat
  name : String
  phoneNumber : String
deriving DecidableEq, Repr

/-- Entry of the embedded `auditLog` JSON array on an SOS event.
`reason` is present only on CANCELLED entries, `correlationId` only on
TRIGGERED entries; absent JSON fields are `none`. -/
structure AuditEntry where
  action : String
  timestamp : Int
  reason : Option String
  correlationId : Option String
deriving DecidableEq, Repr

/-- The SosEvent row (interface SosEvent of sos.repository.ts).
The DB-managed `createdAt`/`updatedAt` columns are omitted. -/
structure SosEvent where
  id : Nat
  userId : Nat
  triggeredAt : Int
  cancelledAt : Option Int
  resolvedAt : Option Int
  latitude : Int
  longitude : Int
  status : String
  notifiedContacts : List NotifiedContact
  auditLog : List AuditEntry
  idempotencyKey : Option String
deriving DecidableEq, Repr

/-- A row of the external audit store (auditRepository.create):
the fields the SOS service passes that the claims can observe. -/
structure ExternalAudit where
  userId : Nat
  action : String
  resourceId : Nat
  correlationId : Option String
deriving DecidableEq, Repr

/-- The durable store seen by the SOS subsystem: the sos_events table,
the external audit table, and the id supply for created rows. -/
structure SosDb where
  events : List SosEvent
  audits : List ExternalAudit
  nextId : Nat
deriving DecidableEq, Repr

def SosDb.empty : SosDb := ⟨[], [], 0⟩

/-- A contact row as the SOS service consumes it: `id`, `name`,
`phoneNumber`, the `isPrimary` flag, and the nullable `contactUserId`
link added by migration 20251222000145_add_contact_invites. -/
structure Contact where
  id : Nat
  name : String
  phoneNumber : String
  isPrimary : Bool
  contactUserId : Option Nat
deriving DecidableEq, Repr

/-- Storage-level errors that a Prisma call can reject with.  The SOS
service does not catch these, so they surface to its caller. -/
inductive DbErr where
  | uniqueViolation (field : String)
  | recordNotFound
deriving DecidableEq, Repr

/-- Domain errors of the SOS service (domain.errors.ts). -/
inductive DomainErr where
  | sosAlreadyActive
  | sosNotActive
deriving DecidableEq, Repr

-- =========================================================================
-- SOS repository (class SosRepository)
-- =========================================================================

namespace SosRepository

/-- `findFirst({where: {userId, status: 'active'}})`. -/
def findActiveByUserId (userId : Nat) (db : SosDb) : Option SosEvent :=
  db.events.find? (fun e => e.userId == userId && e.status == "active")

/-- `findUnique({where: {idempotencyKey: key}})`. -/
def findByIdempotencyKey (key : String) (db : SosDb) : Option SosEvent :=
  db.events.find? (fun e => e.idempotencyKey == some key)

/-- Input of SosRepository.create (interface CreateSosEventInput, with the
fields the service fills in). -/
structure CreateInput where
  userId : Nat
  latitude : Int
  longitude : Int
  triggeredAt : Int
  idempotencyKey : Option String
  notifiedContacts : List NotifiedContact
  auditLog : List AuditEntry

/-- Does the store already hold a row with this (non-null) idempotency
key?  SQL NULLs do not collide on the unique index. -/
def keyConflict (key? : Option String) (db : SosDb) : Bool :=
  match key? with
  | some k => db.events.any (fun e => e.idempotencyKey == some k)
  | none => false

/-- `prisma.sosEvent.create(...)` with `status: 'active'`.  The unique
index sos_events_idempotencyKey_key makes the insert reject when a row
with the same non-null key already exists. -/
def create (input : CreateInput) (db : SosDb) : Except DbErr (SosEvent × SosDb) :=
  if keyConflict input.idempotencyKey db then
    .error (.uniqueViolation "idempotencyKey")
  else
    let ev : SosEvent :=
      { id := db.nextId
        userId := input.userId
        triggeredAt := input.triggeredAt
        cancelledAt := none
        resolvedAt := none
        latitude := input.latitude
        longitude := input.longitude
        status := "active"
        notifiedContacts := input.notifiedContacts
        auditLog := input.auditLog
        idempotencyKey := input.idempotencyKey }
    .ok (ev, { db with events := db.events ++ [ev], nextId := db.nextId + 1 })

/-- SosRepository.cancel: re-read the row by id for its current auditLog,
then update it to `status: 'cancelled'` with `cancelledAt` set and a
CANCELLED entry appended.  `none` models the Prisma rejection when no row
has the id. -/
def cancel (id : Nat) (reason : Option String) (now : Int) (db : SosDb) :
    Option (SosEvent × SosDb) :=
  match db.events.find? (fun e => e.id == id) with
  | none => none
  | some e =>
    let e2 : SosEvent :=
      { e with
        status := "cancelled"
        cancelledAt := some now
        auditLog := e.auditLog ++
          [{ action := "CANCELLED", timestamp := now, reason := reason,
             correlationId := none }] }
    some (e2, { db with events := db.events.map (fun x => if x.id == id then e2 else x) })

/-- SosRepository.resolve: same shape as cancel, with `status: 'resolved'`,
`resolvedAt` set, and a RESOLVED entry appended. -/
def resolve (id : Nat) (now : Int) (db : SosDb) : Option (SosEvent × SosDb) :=
  match db.events.find? (fun e => e.id == id) with
  | none => none
  | some e =>
    let e2 : SosEvent :=
      { e with
        status := "resolved"
        resolvedAt := some now
        auditLog := e.auditLog ++
          [{ action := "RESOLVED", timestamp := now, reason := none,
             correlationId := none }] }
    some (e2, { db with events := db.events.map (fun x => if x.id == id then e2 else x) })

end SosRepository

-- =========================================================================
-- SOS service (class SosService)
-- =========================================================================

/-- The collaborators the SOS service reads from, plus the clock.
`primaryContacts` is contactService.getPrimaryContacts.
`contactsWithUser` is contactService.getContactsWithUser.
Modelled from the spec: getContactsWithUser is called by the SOS service
but its definition is not among the sources; per the spec's Contact
Directory interface (`findLinkedContacts(subjectId) → Contact[]`) it is an
arbitrary directory read returning the subject's linked contacts, so it is
an opaque environment function here, independent of the SOS store.
`notifyFails` says whether the body of the notification try-block (the
directory read and the socket emit) throws. -/
structure SosEnv where
  primaryContacts : Nat → List Contact
  contactsWithUser : Nat → List Contact
  notifyFails : Bool
  now : Int

/-- interface TriggerSosInput. -/
structure TriggerSosInput where
  latitude : Int
  longitude : Int
  idempotencyKey : Option String
deriving DecidableEq, Repr

/-- interface AuditContext (ipAddress/userAgent carry no claim content). -/
structure AuditContext where
  correlationId : Option String
deriving DecidableEq, Repr

/-- Outcome of one SOS service call: a Result ok, a Result fail with a
domain error, or an uncaught storage rejection propagating to the caller. -/
inductive SosOutcome where
  | ok (e : SosEvent)
  | err (e : DomainErr)
  | raised (e : DbErr)
deriving DecidableEq, Repr

/-- The event carried by an ok outcome, if any. -/
def SosOutcome.event? : SosOutcome → Option SosEvent
  | .ok e => some e
  | _ => none

/-- Full effect of one SOS service call: the outcome the caller sees, the
database afterwards, and the realtime messages emitted
(recipient user-ids paired with an event tag). -/
structure SosResult where
  outcome : SosOutcome
  db : SosDb
  emits : List (List Nat × String)
deriving DecidableEq, Repr

namespace SosService

/-- The recipient list of the socket fan-out:
`contactsWithUser.filter(c => c.contactUserId).map(c => c.contactUserId!)`. -/
def notifyRecipients (env : SosEnv) (userId : Nat) : List Nat :=
  (env.contactsWithUser userId).filterMap (fun c => c.contactUserId)

/-- The idempotency pre-check of triggerSos:
`if (input.idempotencyKey) { const existing = await findByIdempotencyKey(...); if (existing) return ok(existing); }`.
JS truthiness: the empty string skips the check. -/
def idemLookup (input : TriggerSosInput) (db : SosDb) : Option SosEvent :=
  match input.idempotencyKey with
  | some k => if k = "" then none else SosRepository.findByIdempotencyKey k db
  | none => none

/-- SosService.triggerSos after its three reads (idempotency lookup,
active lookup, primary contacts — the contact read is the db-independent
`env.primaryContacts`).  The read results are parameters so that a racing
call whose reads saw an older snapshot is the same function applied to the
stale read results and the current store.  From here the call runs:
create, external audit insert, then the try-block with the socket emit. -/
def triggerAfterReads (env : SosEnv) (userId : Nat) (input : TriggerSosInput)
    (ctx : AuditContext) (idemRes : Option SosEvent) (activeRes : Option SosEvent)
    (db : SosDb) : SosResult :=
  match idemRes with
  | some existing => ⟨.ok existing, db, []⟩
  | none =>
    match activeRes with
    | some _ => ⟨.err .sosAlreadyActive, db, []⟩
    | none =>
      let contacts := env.primaryContacts userId
      let notified := contacts.map
        (fun c => ({ id := c.id, name := c.name, phoneNumber := c.phoneNumber } : NotifiedContact))
      match SosRepository.create
          { userId := userId
            latitude := input.latitude
            longitude := input.longitude
            triggeredAt := env.now
            idempotencyKey := input.idempotencyKey
            notifiedContacts := notified
            auditLog := [{ action := "TRIGGERED", timestamp := env.now,
                           reason := none, correlationId := ctx.correlationId }] } db with
      | .error e => ⟨.raised e, db, []⟩
      | .ok (ev, db1) =>
        let db2 := { db1 with audits := db1.audits ++
          [{ userId := userId, action := "SOS_TRIGGERED", resourceId := ev.id,
             correlationId := ctx.correlationId }] }
        if env.notifyFails then
          ⟨.ok ev, db2, []⟩
        else
          let recips := notifyRecipients env userId
          let emits := if recips.isEmpty then [] else [(recips, "sos:alert:start")]
          ⟨.ok ev, db2, emits⟩

/-- SosService.triggerSos: one sequential call, all reads against the same
store the writes go to. -/
def triggerSos (env : SosEnv) (userId : Nat) (input : TriggerSosInput)
    (ctx : AuditContext) (db : SosDb) : SosResult :=
  triggerAfterReads env userId input ctx (idemLookup input db)
    (SosRepository.findActiveByUserId userId db) db

/-- SosService.cancelSos: guard on an active event, repository cancel,
notification try-block, external audit insert, ok(cancelledSos). -/
def cancelSos (env : SosEnv) (userId : Nat) (reason : Option String)
    (ctx : AuditContext) (db : SosDb) : SosResult :=
  match SosRepository.findActiveByUserId userId db with
  | none => ⟨.err .sosNotActive, db, []⟩
  | some activeSos =>
    match SosRepository.cancel activeSos.id reason env.now db with
    | none => ⟨.raised .recordNotFound, db, []⟩
    | some (ev, db1) =>
      let emits :=
        if env.notifyFails then []
        else
          let recips := notifyRecipients env userId
          if recips.isEmpty then [] else [(recips, "sos:alert:end:cancelled")]
      let db2 := { db1 with audits := db1.audits ++
        [{ userId := userId, action := "SOS_CANCELLED", resourceId := activeSos.id,
           correlationId := ctx.correlationId }] }
      ⟨.ok ev, db2, emits⟩

/-- SosService.resolveSos: same shape as cancelSos with resolve. -/
def resolveSos (env : SosEnv) (userId : Nat) (ctx : AuditContext) (db : SosDb) :
    SosResult :=
  match SosRepository.findActiveByUserId userId db with
  | none => ⟨.err .sosNotActive, db, []⟩
  | some activeSos =>
    match SosRepository.resolve activeSos.id env.now db with
    | none => ⟨.raised .recordNotFound, db, []⟩
    | some (ev, db1) =>
      let emits :=
        if env.notifyFails then []
        else
          let recips := notifyRecipients env userId
          if recips.isEmpty then [] else [(recips, "sos:alert:end:resolved")]
      let db2 := { db1 with audits := db1.audits ++
        [{ userId := userId, action := "SOS_RESOLVED", resourceId := activeSos.id,
           correlationId := ctx.correlationId }] }
      ⟨.ok ev, db2, emits⟩

end SosService

-- =========================================================================
-- SOS lifecycle as a transition system
-- =========================================================================

/-- One application of a lifecycle operation, with arbitrary caller and
environment. -/
inductive SosOp where
  | trigger (env : SosEnv) (userId : Nat) (input : TriggerSosInput) (ctx : AuditContext)
  | cancel (env : SosEnv) (userId : Nat) (reason : Option String) (ctx : AuditContext)
  | resolve (env : SosEnv) (userId : Nat) (ctx : AuditContext)

/-- The store after the operation (the db component of the call's result). -/
def SosOp.apply : SosOp → SosDb → SosDb
  | .trigger env u input ctx, db => (SosService.triggerSos env u input ctx db).db
  | .cancel env u reason ctx, db => (SosService.cancelSos env u reason ctx db).db
  | .resolve env u ctx, db => (SosService.resolveSos env u ctx db).db

/-- States reachable from the empty store by the lifecycle operations. -/
inductive SosReachable : SosDb → Prop where
  | init : SosReachable SosDb.empty
  | step (op : SosOp) {db : SosDb} : SosReachable db → SosReachable (op.apply db)

/-- Is this event an active event of user `u`? -/
def isActiveFor (u : Nat) (e : SosEvent) : Bool :=
  e.userId == u && e.status == "active"

/-- Number of active events of user `u` in the store. -/
def activeCount (db : SosDb) (u : Nat) : Nat :=
  db.events.countP (isActiveFor u)

/-- At most one active SafetyEvent per subject. -/
def OneActivePerUser (db : SosDb) : Prop :=
  ∀ u, activeCount db u ≤ 1

/-- Well-formed identifiers: event ids are pairwise distinct and below the
id supply. -/
def GoodIds (db : SosDb) : Prop :=
  (db.events.map (fun e => e.id)).Nodup ∧ ∀ e ∈ db.events, e.id < db.nextId

/-- The store invariant maintained by the lifecycle operations. -/
def SosInv (db : SosDb) : Prop :=
  OneActivePerUser db ∧ GoodIds db

-- =========================================================================
-- List helper lemmas
-- =========================================================================

theorem countP_map_le {α : Type} (l : List α) (f : α → α) (p : α → Bool)
    (h : ∀ x ∈ l, p (f x) = true → p x = true) :
    (l.map f).countP p ≤ l.countP p := by
  rw [List.countP_map]
  exact List.countP_mono_left h

theorem nodup_append_singleton {l : List Nat} {n : Nat}
    (hn : l.Nodup) (hb : ∀ x ∈ l, x < n) : (l ++ [n]).Nodup := by
  rw [List.nodup_append]
  refine ⟨hn, List.nodup_singleton n, ?_⟩
  intro x hx hmem
  rw [List.mem_singleton] at hmem
  exact absurd (hb x hx) (by omega)

theorem eq_of_mem_of_id_eq {l : List SosEvent} (h : (l.map (fun e => e.id)).Nodup)
    {a b : SosEvent} (ha : a ∈ l) (hb : b ∈ l) (hid : a.id = b.id) : a = b :=
  List.inj_on_of_nodup_map h ha hb hid

-- =========================================================================
-- Invariant preservation
-- =========================================================================

/-- The updated-row map of the repository's cancel/resolve keeps every id. -/
theorem update_map_ids (l : List SosEvent) (id : Nat) (e2 : SosEvent)
    (hid : e2.id = id) :
    (l.map (fun x => if x.id == id then e2 else x)).map (fun e => e.id)
      = l.map (fun e => e.id) := by
  rw [List.map_map]
  refine List.map_congr_left ?_
  intro x _
  by_cases hx : x.id = id
  · simp [hx, hid]
  · simp [hx]

/-- A cancel/resolve style update (new row not active) cannot increase any
user's active count. -/
theorem activeCount_update_le (l : List SosEvent) (id : Nat) (e2 : SosEvent)
    (hstat : e2.status ≠ "active") (u : Nat) :
    (l.map (fun x => if x.id == id then e2 else x)).countP (isActiveFor u)
      ≤ l.countP (isActiveFor u) := by
  refine countP_map_le _ _ _ ?_
  intro x _ hpx
  by_cases hx : x.id == id
  · exfalso
    simp only [hx, if_true] at hpx
    have : e2.status = "active" := by
      simp only [isActiveFor, Bool.and_eq_true, beq_iff_eq] at hpx
      exact hpx.2
    exact hstat this
  · simpa [hx] using hpx

theorem sosInv_cancelRepo {db : SosDb} (h : SosInv db) (id : Nat)
    (reason : Option String) (now : Int) {ev : SosEvent} {db1 : SosDb}
    (hc : SosRepository.cancel id reason now db = some (ev, db1)) : SosInv db1 := by
  unfold SosRepository.cancel at hc
  cases hfind : db.events.find? (fun e => e.id == id) with
  | none => rw [hfind] at hc; exact absurd hc (by simp)
  | some e =>
    rw [hfind] at hc
    simp only [Option.some.injEq, Prod.mk.injEq] at hc
    obtain ⟨hev, hdb1⟩ := hc
    have heid : e.id = id := by simpa using List.find?_some hfind
    subst hdb1
    subst hev
    have h1 := h.1
    have h2 := h.2.1
    have h3 := h.2.2
    refine ⟨?_, ?_, ?_⟩
    · intro u
      refine le_trans (activeCount_update_le _ _ _ ?_ u) (h1 u)
      simp
    · show ((db.events.map _).map (fun x : SosEvent => x.id)).Nodup
      rw [update_map_ids db.events id]
      · exact h2
      · exact heid
    · intro x hx
      simp only [List.mem_map] at hx
      obtain ⟨y, hy, hxy⟩ := hx
      by_cases hyid : y.id == id
      · have hx2 : x.id = e.id := by
          rw [← hxy]
          simp [hyid]
        rw [hx2]
        exact h3 e (List.mem_of_find?_eq_some hfind)
      · have hx2 : x = y := by
          rw [← hxy]
          simp [hyid]
        rw [hx2]
        exact h3 y hy

theorem sosInv_resolveRepo {db : SosDb} (h : SosInv db) (id : Nat)
    (now : Int) {ev : SosEvent} {db1 : SosDb}
    (hc : SosRepository.resolve id now db = some (ev, db1)) : SosInv db1 := by
  unfold SosRepository.resolve at hc
  cases hfind : db.events.find? (fun e => e.id == id) with
  | none => rw [hfind] at hc; exact absurd hc (by simp)
  | some e =>
    rw [hfind] at hc
    simp only [Option.some.injEq, Prod.mk.injEq] at hc
    obtain ⟨hev, hdb1⟩ := hc
    have heid : e.id = id := by simpa using List.find?_some hfind
    subst hdb1
    subst hev
    have h1 := h.1
    have h2 := h.2.1
    have h3 := h.2.2
    refine ⟨?_, ?_, ?_⟩
    · intro u
      refine le_trans (activeCount_update_le _ _ _ ?_ u) (h1 u)
      simp
    · show ((db.events.map _).map (fun x : SosEvent => x.id)).Nodup
      rw [update_map_ids db.events id]
      · exact h2
      · exact heid
    · intro x hx
      simp only [List.mem_map] at hx
      obtain ⟨y, hy, hxy⟩ := hx
      by_cases hyid : y.id == id
      · have hx2 : x.id = e.id := by
          rw [← hxy]
          simp [hyid]
        rw [hx2]
        exact h3 e (List.mem_of_find?_eq_some hfind)
      · have hx2 : x = y := by
          rw [← hxy]
          simp [hyid]
        rw [hx2]
        exact h3 y hy

theorem sosInv_create {db : SosDb} (h : SosInv db) (input : SosRepository.CreateInput)
    (hact : SosRepository.findActiveByUserId input.userId db = none)
    {ev : SosEvent} {db1 : SosDb}
    (hc : SosRepository.create input db = .ok (ev, db1)) : SosInv db1 := by
  simp only [SosRepository.create] at hc
  by_cases hconf : SosRepository.keyConflict input.idempotencyKey db = true
  · rw [if_pos hconf] at hc
    exact absurd hc (by simp)
  · rw [if_neg hconf] at hc
    simp only [Except.ok.injEq, Prod.mk.injEq] at hc
    obtain ⟨hev, hdb1⟩ := hc
    subst hdb1
    subst hev
    refine ⟨?_, ?_, ?_⟩
    · intro u
      show ((db.events ++ [_]).countP (isActiveFor u)) ≤ 1
      rw [List.countP_append]
      by_cases hu : u = input.userId
      · have h0 : db.events.countP (isActiveFor u) = 0 := by
          refine List.countP_eq_zero.mpr ?_
          intro a ha
          have ha2 := List.find?_eq_none.mp hact a ha
          simpa [isActiveFor, hu] using ha2
        rw [h0]
        simp [isActiveFor, hu]
      · have hu2 : ¬ (input.userId = u) := fun hh => hu hh.symm
        simpa [activeCount, isActiveFor, hu2] using h.1 u
    · show ((db.events ++ [_]).map (fun x : SosEvent => x.id)).Nodup
      rw [List.map_append]
      simp only [List.map_cons, List.map_nil]
      refine nodup_append_singleton h.2.1 ?_
      intro x hx
      simp only [List.mem_map] at hx
      obtain ⟨e0, he0, rfl⟩ := hx
      exact h.2.2 e0 he0
    · intro x hx
      simp only [List.mem_append, List.mem_singleton] at hx
      rcases hx with hx | hx
      · have := h.2.2 x hx
        show x.id < db.nextId + 1
        omega
      · subst hx
        show db.nextId < db.nextId + 1
        omega

theorem sosInv_triggerAfterReads (env : SosEnv) (u : Nat) (input : TriggerSosInput)
    (ctx : AuditContext) (idemRes activeRes : Option SosEvent) {db : SosDb}
    (h : SosInv db)
    (hact : activeRes = none → SosRepository.findActiveByUserId u db = none) :
    SosInv (SosService.triggerAfterReads env u input ctx idemRes activeRes db).db := by
  cases idemRes with
  | some e => exact h
  | none =>
    cases activeRes with
    | some a => exact h
    | none =>
      cases hcr : SosRepository.create
          { userId := u
            latitude := input.latitude
            longitude := input.longitude
            triggeredAt := env.now
            idempotencyKey := input.idempotencyKey
            notifiedContacts := (env.primaryContacts u).map
              (fun c => ({ id := c.id, name := c.name, phoneNumber := c.phoneNumber } : NotifiedContact))
            auditLog := [{ action := "TRIGGERED", timestamp := env.now,
                           reason := none, correlationId := ctx.correlationId }] } db with
      | error e =>
        simp only [SosService.triggerAfterReads, hcr]
        exact h
      | ok p =>
        obtain ⟨ev, db1⟩ := p
        have hfin : SosInv db1 := sosInv_create h _ (hact rfl) hcr
        simp only [SosService.triggerAfterReads, hcr]
        by_cases hnf : env.notifyFails = true
        · simp only [hnf, if_true]
          exact hfin
        · simp only [hnf, if_false]
          exact hfin

theorem sosInv_trigger (env : SosEnv) (u : Nat) (input : TriggerSosInput)
    (ctx : AuditContext) {db : SosDb} (h : SosInv db) :
    SosInv (SosService.triggerSos env u input ctx db).db := by
  have := sosInv_triggerAfterReads env u input ctx (SosService.idemLookup input db)
    (SosRepository.findActiveByUserId u db) h (fun hh => hh)
  exact this


theorem sosInv_cancelSos (env : SosEnv) (u : Nat) (reason : Option String)
    (ctx : AuditContext) {db : SosDb} (h : SosInv db) :
    SosInv (SosService.cancelSos env u reason ctx db).db := by
  cases hact : SosRepository.findActiveByUserId u db with
  | none =>
    simp only [SosService.cancelSos, hact]
    exact h
  | some a =>
    cases hc : SosRepository.cancel a.id reason env.now db with
    | none =>
      simp only [SosService.cancelSos, hact, hc]
      exact h
    | some p =>
      obtain ⟨ev, db1⟩ := p
      have h1 := sosInv_cancelRepo h a.id reason env.now hc
      simp only [SosService.cancelSos, hact, hc]
      exact h1

theorem sosInv_resolveSos (env : SosEnv) (u : Nat) (ctx : AuditContext)
    {db : SosDb} (h : SosInv db) :
    SosInv (SosService.resolveSos env u ctx db).db := by
  cases hact : SosRepository.findActiveByUserId u db with
  | none =>
    simp only [SosService.resolveSos, hact]
    exact h
  | some a =>
    cases hc : SosRepository.resolve a.id env.now db with
    | none =>
      simp only [SosService.resolveSos, hact, hc]
      exact h
    | some p =>
      obtain ⟨ev, db1⟩ := p
      have h1 := sosInv_resolveRepo h a.id env.now hc
      simp only [SosService.resolveSos, hact, hc]
      exact h1

theorem sosInv_apply (op : SosOp) {db : SosDb} (h : SosInv db) :
    SosInv (op.apply db) := by
  cases op with
  | trigger env u input ctx => exact sosInv_trigger env u input ctx h
  | cancel env u reason ctx => exact sosInv_cancelSos env u reason ctx h
  | resolve env u ctx => exact sosInv_resolveSos env u ctx h

/-- Every reachable store satisfies the invariant. -/
theorem sosInv_reachable {db : SosDb} (h : SosReachable db) : SosInv db := by
  induction h with
  | init =>
    refine ⟨fun u => ?_, ?_, ?_⟩
    · simp [activeCount, SosDb.empty]
    · simp [SosDb.empty]
    · simp [SosDb.empty]
  | step op h ih => exact sosInv_apply op ih

-- =========================================================================
-- Terminal-state preservation
-- =========================================================================

/-- Between two stores: every non-active event survives unchanged, and any
event that shares an id with an old event is either that event unchanged or
a terminal update of an active event. -/
def TerminalFrozen (db db2 : SosDb) : Prop :=
  (∀ e ∈ db.events, e.status ≠ "active" → e ∈ db2.events) ∧
  (∀ e ∈ db.events, ∀ e2 ∈ db2.events, e2.id = e.id →
     e2 = e ∨ (e.status = "active" ∧ (e2.status = "cancelled" ∨ e2.status = "resolved")))

theorem terminalFrozen_refl {db : SosDb}
    (h2 : (db.events.map (fun e => e.id)).Nodup) : TerminalFrozen db db := by
  refine ⟨fun e he _ => he, ?_⟩
  intro e he e2 he2 hid
  exact Or.inl (eq_of_mem_of_id_eq h2 he2 he hid)

theorem terminalFrozen_update {db : SosDb} (hInv : SosInv db)
    {a e2 : SosEvent} (haMem : a ∈ db.events) (haStat : a.status = "active")
    {db2 : SosDb}
    (hev : db2.events = db.events.map (fun x => if x.id == a.id then e2 else x))
    (hid : e2.id = a.id) (hstat : e2.status = "cancelled" ∨ e2.status = "resolved") :
    TerminalFrozen db db2 := by
  have hNodup := hInv.2.1
  constructor
  · intro e he hst
    have heid : ¬ (e.id = a.id) := by
      intro hh
      exact hst (by rw [eq_of_mem_of_id_eq hNodup he haMem hh]; exact haStat)
    rw [hev]
    have : (if e.id == a.id then e2 else e) = e := by simp [heid]
    rw [← this]
    exact List.mem_map_of_mem _ he
  · intro e he e2' he2' hid'
    rw [hev] at he2'
    simp only [List.mem_map] at he2'
    obtain ⟨y, hy, hxy⟩ := he2'
    by_cases hyid : y.id = a.id
    · have hlit : e2' = e2 := by rw [← hxy]; simp [hyid]
      have hea : e.id = a.id := by
        rw [← hid', hlit, hid]
      have : e = a := eq_of_mem_of_id_eq hNodup he haMem hea
      subst this
      exact Or.inr ⟨haStat, by rw [hlit]; exact hstat⟩
    · have hlit : e2' = y := by rw [← hxy]; simp [hyid]
      subst hlit
      exact Or.inl (eq_of_mem_of_id_eq hNodup hy he hid')

theorem terminalFrozen_append {db : SosDb} (hInv : SosInv db)
    {input : SosRepository.CreateInput} {ev : SosEvent} {db1 : SosDb}
    (hcr : SosRepository.create input db = .ok (ev, db1)) {db2 : SosDb}
    (hev : db2.events = db1.events) : TerminalFrozen db db2 := by
  simp only [SosRepository.create] at hcr
  by_cases hconf : SosRepository.keyConflict input.idempotencyKey db = true
  · rw [if_pos hconf] at hcr
    exact absurd hcr (by simp)
  · rw [if_neg hconf] at hcr
    simp only [Except.ok.injEq, Prod.mk.injEq] at hcr
    obtain ⟨hev2, hdb1⟩ := hcr
    subst hdb1
    constructor
    · intro e he _
      rw [hev]
      exact List.mem_append_left _ he
    · intro e he e2' he2' hid'
      rw [hev] at he2'
      simp only [List.mem_append, List.mem_singleton] at he2'
      rcases he2' with he2' | he2'
      · exact Or.inl (eq_of_mem_of_id_eq hInv.2.1 he2' he hid')
      · exfalso
        have hlt := hInv.2.2 e he
        have : e2'.id = db.nextId := by rw [he2']
        omega

theorem terminalFrozen_triggerAfterReads (env : SosEnv) (u : Nat)
    (input : TriggerSosInput) (ctx : AuditContext)
    (idemRes activeRes : Option SosEvent) {db : SosDb} (hInv : SosInv db) :
    TerminalFrozen db (SosService.triggerAfterReads env u input ctx idemRes activeRes db).db := by
  cases idemRes with
  | some e => exact terminalFrozen_refl hInv.2.1
  | none =>
    cases activeRes with
    | some a => exact terminalFrozen_refl hInv.2.1
    | none =>
      cases hcr : SosRepository.create
          { userId := u
            latitude := input.latitude
            longitude := input.longitude
            triggeredAt := env.now
            idempotencyKey := input.idempotencyKey
            notifiedContacts := (env.primaryContacts u).map
              (fun c => ({ id := c.id, name := c.name, phoneNumber := c.phoneNumber } : NotifiedContact))
            auditLog := [{ action := "TRIGGERED", timestamp := env.now,
                           reason := none, correlationId := ctx.correlationId }] } db with
      | error e =>
        simp only [SosService.triggerAfterReads, hcr]
        exact terminalFrozen_refl hInv.2.1
      | ok p =>
        obtain ⟨ev, db1⟩ := p
        simp only [SosService.triggerAfterReads, hcr]
        by_cases hnf : env.notifyFails = true
        · simp only [hnf, if_true]
          exact terminalFrozen_append hInv hcr rfl
        · simp only [hnf, if_false]
          exact terminalFrozen_append hInv hcr rfl

theorem terminalFrozen_cancelSos (env : SosEnv) (u : Nat) (reason : Option String)
    (ctx : AuditContext) {db : SosDb} (hInv : SosInv db) :
    TerminalFrozen db (SosService.cancelSos env u reason ctx db).db := by
  cases hact : SosRepository.findActiveByUserId u db with
  | none =>
    simp only [SosService.cancelSos, hact]
    exact terminalFrozen_refl hInv.2.1
  | some a =>
    have haMem : a ∈ db.events := List.mem_of_find?_eq_some hact
    have haStat : a.status = "active" := by
      have := List.find?_some hact
      simp only [Bool.and_eq_true, beq_iff_eq] at this
      exact this.2
    cases hc : SosRepository.cancel a.id reason env.now db with
    | none =>
      simp only [SosService.cancelSos, hact, hc]
      exact terminalFrozen_refl hInv.2.1
    | some p =>
      obtain ⟨ev, db1⟩ := p
      simp only [SosService.cancelSos, hact, hc]
      simp only [SosRepository.cancel] at hc
      cases hfind : db.events.find? (fun e => e.id == a.id) with
      | none => rw [hfind] at hc; exact absurd hc (by simp)
      | some e0 =>
        rw [hfind] at hc
        simp only [Option.some.injEq, Prod.mk.injEq] at hc
        obtain ⟨hev2, hdb1⟩ := hc
        subst hdb1
        subst hev2
        have he0id : e0.id = a.id := by simpa using List.find?_some hfind
        exact terminalFrozen_update hInv haMem haStat rfl he0id (Or.inl rfl)

theorem terminalFrozen_resolveSos (env : SosEnv) (u : Nat)
    (ctx : AuditContext) {db : SosDb} (hInv : SosInv db) :
    TerminalFrozen db (SosService.resolveSos env u ctx db).db := by
  cases hact : SosRepository.findActiveByUserId u db with
  | none =>
    simp only [SosService.resolveSos, hact]
    exact terminalFrozen_refl hInv.2.1
  | some a =>
    have haMem : a ∈ db.events := List.mem_of_find?_eq_some hact
    have haStat : a.status = "active" := by
      have := List.find?_some hact
      simp only [Bool.and_eq_true, beq_iff_eq] at this
      exact this.2
    cases hc : SosRepository.resolve a.id env.now db with
    | none =>
      simp only [SosService.resolveSos, hact, hc]
      exact terminalFrozen_refl hInv.2.1
    | some p =>
      obtain ⟨ev, db1⟩ := p
      simp only [SosService.resolveSos, hact, hc]
      simp only [SosRepository.resolve] at hc
      cases hfind : db.events.find? (fun e => e.id == a.id) with
      | none => rw [hfind] at hc; exact absurd hc (by simp)
      | some e0 =>
        rw [hfind] at hc
        simp only [Option.some.injEq, Prod.mk.injEq] at hc
        obtain ⟨hev2, hdb1⟩ := hc
        subst hdb1
        subst hev2
        have he0id : e0.id = a.id := by simpa using List.find?_some hfind
        exact terminalFrozen_update hInv haMem haStat rfl he0id (Or.inr rfl)

theorem terminalFrozen_apply (op : SosOp) {db : SosDb} (hInv : SosInv db) :
    TerminalFrozen db (op.apply db) := by
  cases op with
  | trigger env u input ctx =>
    exact terminalFrozen_triggerAfterReads env u input ctx _ _ hInv
  | cancel env u reason ctx => exact terminalFrozen_cancelSos env u reason ctx hInv
  | resolve env u ctx => exact terminalFrozen_resolveSos env u ctx hInv

-- =========================================================================
-- Refresh-token data model (refresh-token repository, auth.middleware.ts)
-- =========================================================================

/-- A presented refresh credential: a signed JWT string.  `value` is the
identity of the string (the repository looks records up by it), the other
fields are what `jwt.verify` recovers: the payload `{sub, family}`, the
embedded expiry, and whether the signature verifies at all. -/
structure Token where
  value : Nat
  sub : Nat
  family : Nat
  jwtExp : Int
  validSig : Bool
deriving DecidableEq, Repr

/-- The refresh_tokens row (interface RefreshToken; `createdAt` omitted). -/
structure StoredToken where
  id : Nat
  token : Nat
  userId : Nat
  family : Nat
  expiresAt : Int
  revoked : Bool
deriving DecidableEq, Repr

/-- The durable store of the auth subsystem: refresh-token rows, the set
of existing user ids, and the id supply (also used as the fresh opaque
value of a newly signed credential). -/
structure AuthDb where
  tokens : List StoredToken
  users : List Nat
  nextId : Nat
deriving DecidableEq, Repr

/-- Errors of the auth flow (domain.errors.ts). -/
inductive AuthErr where
  | tokenExpired
  | tokenInvalid
  | refreshTokenRevoked
  | notFound (resource : String)
deriving DecidableEq, Repr

/-- Payload of a verified refresh JWT. -/
structure RefreshPayload where
  sub : Nat
  family : Nat
deriving DecidableEq, Repr

/-- verifyRefreshToken (auth.middleware.ts): `jwt.verify` then
`catch { if TokenExpiredError throw TokenExpiredError; throw TokenInvalidError }`.
jsonwebtoken treats the credential as expired when the clock has reached
its embedded `exp`. -/
def verifyRefreshToken (now : Int) (t : Token) : Except AuthErr RefreshPayload :=
  if t.validSig = false then
    .error .tokenInvalid
  else if t.jwtExp ≤ now then
    .error .tokenExpired
  else
    .ok ⟨t.sub, t.family⟩

namespace RefreshTokenRepository

/-- `findUnique({where: {token}})`. -/
def findByToken (value : Nat) (db : AuthDb) : Option StoredToken :=
  db.tokens.find? (fun t => t.token == value)

/-- `update({where: {id}, data: {revoked: true}})`. -/
def revoke (id : Nat) (db : AuthDb) : AuthDb :=
  { db with
    tokens := db.tokens.map (fun t => if t.id == id then { t with revoked := true } else t) }

/-- `updateMany({where: {family}, data: {revoked: true}})`. -/
def revokeFamily (family : Nat) (db : AuthDb) : AuthDb :=
  { db with
    tokens := db.tokens.map (fun t => if t.family == family then { t with revoked := true } else t) }

end RefreshTokenRepository

namespace AuthService

/-- AuthService.createTokens on the rotation path (the family is given):
sign a fresh refresh JWT (sub, family, expiry `now + expSec`), store its
row with `expiresAt` computed from the same clock and duration, return the
credential.  The stateless access credential carries no stored state and
is omitted.  A fresh opaque value is drawn from the id supply. -/
def createTokens (expSec now : Int) (userId family : Nat) (db : AuthDb) :
    Token × AuthDb :=
  let tok : Token :=
    { value := db.nextId, sub := userId, family := family,
      jwtExp := now + expSec, validSig := true }
  let row : StoredToken :=
    { id := db.nextId, token := db.nextId, userId := userId, family := family,
      expiresAt := now + expSec, revoked := false }
  (tok, { db with tokens := db.tokens ++ [row], nextId := db.nextId + 1 })

/-- Outcome of one refreshTokens call: success with the new refresh
credential, a Result failure, or a thrown error propagating out of the
un-caught `verifyRefreshToken` call. -/
inductive RotOutcome where
  | ok (t : Token)
  | failed (e : AuthErr)
  | thrown (e : AuthErr)
deriving DecidableEq, Repr

/-- The new credential carried by an ok outcome, if any. -/
def RotOutcome.token? : RotOutcome → Option Token
  | .ok t => some t
  | _ => none

/-- Is this outcome a success? -/
def RotOutcome.isOk : RotOutcome → Bool
  | .ok _ => true
  | _ => false

/-- AuthService.refreshTokens from the point after the `findByToken` read
(the `storedToken` variable holds that read's snapshot), source order:
revoked check (breach: revokeFamily, fail Revoked) — expiry check (fail
Revoked) — revoke the presented token — findById user (fail NotFound) —
createTokens in the stored token's family.  The read result is a
parameter so that a racing call whose read saw an older snapshot is the
same function applied to the stale snapshot and the current store. -/
def rotateAfterRead (expSec now : Int) (payload : RefreshPayload)
    (stored : Option StoredToken) (db : AuthDb) : RotOutcome × AuthDb :=
  match stored with
  | none => (.failed .refreshTokenRevoked, db)
  | some st =>
    if st.revoked then
      (.failed .refreshTokenRevoked, RefreshTokenRepository.revokeFamily st.family db)
    else if st.expiresAt < now then
      (.failed .refreshTokenRevoked, db)
    else
      let db1 := RefreshTokenRepository.revoke st.id db
      if db1.users.contains payload.sub then
        let (tok, db2) := createTokens expSec now payload.sub st.family db1
        (.ok tok, db2)
      else
        (.failed (.notFound "User"), db1)

/-- AuthService.refreshTokens: verify the signature, read the stored row
by value, then the rotation steps — one sequential call, the read against
the same store the writes go to. -/
def refreshTokens (expSec now : Int) (tok : Token) (db : AuthDb) :
    RotOutcome × AuthDb :=
  match verifyRefreshToken now tok with
  | .error e => (.thrown e, db)
  | .ok payload =>
    rotateAfterRead expSec now payload (RefreshTokenRepository.findByToken tok.value db) db

/-- Two concurrent refreshTokens calls presenting the same credential,
under the schedule in which both `findByToken` reads commit before either
call's writes: call A then runs its remaining steps to completion, then
call B runs its remaining steps against the store A left behind, still
holding the snapshot its own read returned. -/
def refreshTokensRace2 (expSec now : Int) (tok : Token) (db : AuthDb) :
    (RotOutcome × RotOutcome) × AuthDb :=
  match verifyRefreshToken now tok with
  | .error e => ((.thrown e, .thrown e), db)
  | .ok payload =>
    let sA := RefreshTokenRepository.findByToken tok.value db
    let sB := RefreshTokenRepository.findByToken tok.value db
    let (outA, db1) := rotateAfterRead expSec now payload sA db
    let (outB, db2) := rotateAfterRead expSec now payload sB db1
    ((outA, outB), db2)

end AuthService

-- =========================================================================
-- Characterization lemmas for triggerSos
-- =========================================================================

/-- The row a conflict-free trigger inserts (read off SosRepository.create
applied to the service's input). -/
def SosService.newEvent (env : SosEnv) (u : Nat) (input : TriggerSosInput)
    (ctx : AuditContext) (db : SosDb) : SosEvent :=
  { id := db.nextId
    userId := u
    triggeredAt := env.now
    cancelledAt := none
    resolvedAt := none
    latitude := input.latitude
    longitude := input.longitude
    status := "active"
    notifiedContacts := (env.primaryContacts u).map
      (fun c => ({ id := c.id, name := c.name, phoneNumber := c.phoneNumber } : NotifiedContact))
    auditLog := [{ action := "TRIGGERED", timestamp := env.now,
                   reason := none, correlationId := ctx.correlationId }]
    idempotencyKey := input.idempotencyKey }

/-- A fresh, conflict-free trigger: full description of the call. -/
theorem triggerSos_success (env : SosEnv) (u : Nat) (input : TriggerSosInput)
    (ctx : AuditContext) (db : SosDb)
    (hidem : SosService.idemLookup input db = none)
    (hact : SosRepository.findActiveByUserId u db = none)
    (hconf : SosRepository.keyConflict input.idempotencyKey db = false) :
    SosService.triggerSos env u input ctx db =
      { outcome := .ok (SosService.newEvent env u input ctx db)
        db := { events := db.events ++ [SosService.newEvent env u input ctx db]
                audits := db.audits ++
                  [{ userId := u, action := "SOS_TRIGGERED", resourceId := db.nextId,
                     correlationId := ctx.correlationId }]
                nextId := db.nextId + 1 }
        emits := if env.notifyFails then []
                 else if (SosService.notifyRecipients env u).isEmpty then []
                 else [(SosService.notifyRecipients env u, "sos:alert:start")] } := by
  simp only [SosService.triggerSos, SosService.triggerAfterReads, hidem, hact,
    SosRepository.create, hconf, Bool.false_eq_true, if_false]
  by_cases hnf : env.notifyFails = true <;>
    simp [SosService.newEvent, hnf]

/-- A trigger whose supplied (non-empty) key is already stored returns the
stored event unchanged. -/
theorem triggerSos_idem_hit (env : SosEnv) (u : Nat) (input : TriggerSosInput)
    (ctx : AuditContext) (db2 : SosDb) (k : String) (ev : SosEvent)
    (hk : input.idempotencyKey = some k) (hne : ¬ (k = ""))
    (hfind : SosRepository.findByIdempotencyKey k db2 = some ev) :
    SosService.triggerSos env u input ctx db2 = ⟨.ok ev, db2, []⟩ := by
  have hidem : SosService.idemLookup input db2 = some ev := by
    simp [SosService.idemLookup, hk, hne, hfind]
  simp [SosService.triggerSos, SosService.triggerAfterReads, hidem]

theorem findByIdempotencyKey_append (k : String) (l1 : List SosEvent)
    (ev : SosEvent) (h1 : ∀ e ∈ l1, ¬ (e.idempotencyKey = some k))
    (h2 : ev.idempotencyKey = some k) (db2 : SosDb) (hev : db2.events = l1 ++ [ev]) :
    SosRepository.findByIdempotencyKey k db2 = some ev := by
  simp only [SosRepository.findByIdempotencyKey, hev]
  rw [List.find?_append]
  have hnone : l1.find? (fun e => e.idempotencyKey == some k) = none := by
    rw [List.find?_eq_none]
    intro x hx
    simpa using h1 x hx
  rw [hnone]
  simp [h2]

-- =========================================================================
-- Concrete fixtures for witnesses and counterexamples
-- =========================================================================

/-- An environment with an empty contact directory. -/
def emptyEnv : SosEnv :=
  { primaryContacts := fun _ => []
    contactsWithUser := fun _ => []
    notifyFails := false
    now := 0 }

def noCtx : AuditContext := ⟨none⟩

def inputPlain : TriggerSosInput := ⟨10, 20, none⟩

def inputKeyed : TriggerSosInput := ⟨1, 2, some "k"⟩

/-- Store holding one active event of user 0 (a trigger applied to the
empty store). -/
def dbActive : SosDb := (SosOp.trigger emptyEnv 0 inputPlain noCtx).apply SosDb.empty

/-- Store holding one cancelled event of user 0. -/
def dbTerminal : SosDb := (SosOp.cancel emptyEnv 0 none noCtx).apply dbActive

/-- The cancelled row sitting in `dbTerminal`. -/
def evTerminal : SosEvent :=
  { id := 0, userId := 0, triggeredAt := 0, cancelledAt := some 0,
    resolvedAt := none, latitude := 10, longitude := 20, status := "cancelled",
    notifiedContacts := [],
    auditLog := [{ action := "TRIGGERED", timestamp := 0, reason := none, correlationId := none },
                 { action := "CANCELLED", timestamp := 0, reason := none, correlationId := none }],
    idempotencyKey := none }

-- =========================================================================
-- C7
-- =========================================================================

/-- C7: cancelSos and resolveSos on a subject with no active event return
the SosNotActiveError domain failure (no raised storage error) and leave
the store — every stored event — unchanged. -/
theorem c7_guard_law (env : SosEnv) (u : Nat) (reason : Option String)
    (ctx : AuditContext) (db : SosDb)
    (h : SosRepository.findActiveByUserId u db = none) :
    SosService.cancelSos env u reason ctx db = ⟨.err .sosNotActive, db, []⟩ ∧
    SosService.resolveSos env u ctx db = ⟨.err .sosNotActive, db, []⟩ := by
  constructor
  · simp [SosService.cancelSos, h]
  · simp [SosService.resolveSos, h]

theorem c7_guard_law_witness :
    SosService.cancelSos emptyEnv 3 none noCtx SosDb.empty
      = ⟨.err .sosNotActive, SosDb.empty, []⟩ ∧
    SosService.resolveSos emptyEnv 3 noCtx SosDb.empty
      = ⟨.err .sosNotActive, SosDb.empty, []⟩ :=
  c7_guard_law emptyEnv 3 none noCtx SosDb.empty rfl

-- =========================================================================
-- C8
-- =========================================================================

/-- C8: a failure of the notification block (the linked-contact lookup and
the socket emit, both inside the try) never changes a trigger call's
outcome or its stored effects: two runs that differ only in whether that
block fails produce the same outcome and the same database, and the
failing run emits nothing — the failure is only logged. -/
theorem c8_notification_failure_harmless (env1 env2 : SosEnv)
    (hp : env1.primaryContacts = env2.primaryContacts)
    (hn : env1.now = env2.now)
    (u : Nat) (input : TriggerSosInput) (ctx : AuditContext) (db : SosDb) :
    (SosService.triggerSos env1 u input ctx db).outcome
      = (SosService.triggerSos env2 u input ctx db).outcome ∧
    (SosService.triggerSos env1 u input ctx db).db
      = (SosService.triggerSos env2 u input ctx db).db ∧
    (env1.notifyFails = true → (SosService.triggerSos env1 u input ctx db).emits = []) := by
  obtain ⟨p1, cw1, f1, n1⟩ := env1
  obtain ⟨p2, cw2, f2, n2⟩ := env2
  simp only [SosEnv.primaryContacts] at hp
  simp only [SosEnv.now] at hn
  subst hp
  subst hn
  cases hidem : SosService.idemLookup input db with
  | some e =>
    refine ⟨?_, ?_, ?_⟩ <;>
      simp [SosService.triggerSos, SosService.triggerAfterReads, hidem]
  | none =>
    cases hact : SosRepository.findActiveByUserId u db with
    | some a =>
      refine ⟨?_, ?_, ?_⟩ <;>
        simp [SosService.triggerSos, SosService.triggerAfterReads, hidem, hact]
    | none =>
      cases hcr : SosRepository.create
          { userId := u, latitude := input.latitude, longitude := input.longitude,
            triggeredAt := n1, idempotencyKey := input.idempotencyKey,
            notifiedContacts := (p1 u).map
              (fun c => ({ id := c.id, name := c.name, phoneNumber := c.phoneNumber } : NotifiedContact)),
            auditLog := [{ action := "TRIGGERED", timestamp := n1,
                           reason := none, correlationId := ctx.correlationId }] } db with
      | error e =>
        refine ⟨?_, ?_, ?_⟩ <;>
          simp [SosService.triggerSos, SosService.triggerAfterReads, hidem, hact, hcr]
      | ok pr =>
        obtain ⟨ev, db1⟩ := pr
        refine ⟨?_, ?_, ?_⟩
        · by_cases hf1 : f1 = true <;> by_cases hf2 : f2 = true <;>
            simp [SosService.triggerSos, SosService.triggerAfterReads, hidem, hact, hcr, hf1, hf2]
        · by_cases hf1 : f1 = true <;> by_cases hf2 : f2 = true <;>
            simp [SosService.triggerSos, SosService.triggerAfterReads, hidem, hact, hcr, hf1, hf2]
        · intro hf1
          simp only [SosEnv.notifyFails] at hf1
          simp [SosService.triggerSos, SosService.triggerAfterReads, hidem, hact, hcr, hf1]

/-- The empty-directory environment with a failing notification block. -/
def emptyEnvFail : SosEnv :=
  { primaryContacts := fun _ => []
    contactsWithUser := fun _ => []
    notifyFails := true
    now := 0 }

theorem c8_notification_failure_harmless_witness :
    (SosService.triggerSos emptyEnvFail 0 inputPlain noCtx SosDb.empty).outcome
      = (SosService.triggerSos emptyEnv 0 inputPlain noCtx SosDb.empty).outcome ∧
    (SosService.triggerSos emptyEnvFail 0 inputPlain noCtx SosDb.empty).db
      = (SosService.triggerSos emptyEnv 0 inputPlain noCtx SosDb.empty).db ∧
    (emptyEnvFail.notifyFails = true →
      (SosService.triggerSos emptyEnvFail 0 inputPlain noCtx SosDb.empty).emits = []) :=
  c8_notification_failure_harmless emptyEnvFail emptyEnv rfl rfl 0 inputPlain noCtx SosDb.empty

-- =========================================================================
-- C2
-- =========================================================================

/-- C2: in every store reachable by trigger/cancel/resolve, each subject
has at most one active event; and a trigger whose idempotency pre-check
misses while the subject has an active event fails with the AlreadyActive
conflict, emitting nothing and leaving the store — hence the invariant —
unchanged. -/
theorem c2_one_active_invariant {db : SosDb} (h : SosReachable db) :
    OneActivePerUser db ∧
    (∀ (env : SosEnv) (u : Nat) (input : TriggerSosInput) (ctx : AuditContext)
       (a : SosEvent), SosService.idemLookup input db = none →
       SosRepository.findActiveByUserId u db = some a →
       SosService.triggerSos env u input ctx db = ⟨.err .sosAlreadyActive, db, []⟩) := by
  refine ⟨(sosInv_reachable h).1, ?_⟩
  intro env u input ctx a hidem hact
  simp [SosService.triggerSos, SosService.triggerAfterReads, hidem, hact]

theorem c2_one_active_invariant_witness :
    OneActivePerUser dbActive ∧
    SosService.triggerSos emptyEnv 0 inputPlain noCtx dbActive
      = ⟨.err .sosAlreadyActive, dbActive, []⟩ := by
  have h := c2_one_active_invariant
    (SosReachable.step (SosOp.trigger emptyEnv 0 inputPlain noCtx) SosReachable.init)
  exact ⟨h.1, h.2 emptyEnv 0 inputPlain noCtx _ rfl rfl⟩

-- =========================================================================
-- C6
-- =========================================================================

/-- C6: in every reachable store, no lifecycle operation changes a
cancelled or resolved event — the row survives with every field intact —
and any row that replaces an old row (same id) is either identical to it
or a terminal (cancelled/resolved) update of an active row, so the only
status transitions are active→cancelled and active→resolved. -/
theorem c6_terminal_state_law {db : SosDb} (h : SosReachable db) (op : SosOp) :
    (∀ e ∈ db.events, (e.status = "cancelled" ∨ e.status = "resolved") →
       e ∈ (op.apply db).events) ∧
    (∀ e ∈ db.events, ∀ e2 ∈ (op.apply db).events, e2.id = e.id →
       e2 = e ∨ (e.status = "active" ∧ (e2.status = "cancelled" ∨ e2.status = "resolved"))) := by
  have hInv := sosInv_reachable h
  have hTF := terminalFrozen_apply op hInv
  refine ⟨?_, hTF.2⟩
  intro e he hst
  refine hTF.1 e he ?_
  rcases hst with hst | hst <;> rw [hst] <;> decide

theorem c6_terminal_state_law_witness :
    evTerminal ∈ ((SosOp.resolve emptyEnv 0 noCtx).apply dbTerminal).events := by
  have h2 : SosReachable dbTerminal :=
    SosReachable.step (SosOp.cancel emptyEnv 0 none noCtx)
      (SosReachable.step (SosOp.trigger emptyEnv 0 inputPlain noCtx) SosReachable.init)
  exact (c6_terminal_state_law h2 (SosOp.resolve emptyEnv 0 noCtx)).1 evTerminal
    (by decide) (Or.inl (by decide))

-- =========================================================================
-- C1
-- =========================================================================

/-- The winner of the C1 race: a keyed trigger against the empty store. -/
def c1Winner : SosResult := SosService.triggerSos emptyEnv 7 inputKeyed noCtx SosDb.empty

/-- The loser of the C1 race: the same call whose reads (idempotency
lookup, active lookup) ran against the pre-insert store, and whose insert
then hits the store the winner committed to. -/
def c1Loser : SosResult :=
  SosService.triggerAfterReads emptyEnv 7 inputKeyed noCtx
    (SosService.idemLookup inputKeyed SosDb.empty)
    (SosRepository.findActiveByUserId 7 SosDb.empty)
    c1Winner.db

/-- C1 counterexample: under the race on the same idempotency key, the
losing trigger call does not receive the winner's event — the uniqueness
violation of the insert propagates to its caller uncaught (triggerSos has
no catch around SosRepository.create), so both callers do not observe the
same event and the collision is caller-visible. -/
theorem c1_counterexample :
    c1Loser.outcome = .raised (.uniqueViolation "idempotencyKey") ∧
    c1Loser.outcome.event? = none ∧
    c1Winner.outcome.event?.isSome = true := by
  refine ⟨rfl, rfl, rfl⟩

/-- C1 amended: sequentially the claim holds — a second trigger with the
same (non-empty) key returns the very event the first created, the store
is unchanged by the retry, and exactly one row carries the key; under the
race, exactly one insert succeeds but the loser's call terminates with the
propagated uniqueness violation instead of re-reading by key. -/
theorem c1_amended (env : SosEnv) (u : Nat) (input : TriggerSosInput)
    (ctx : AuditContext) (db : SosDb) (k : String)
    (hk : input.idempotencyKey = some k) (hne : ¬ (k = ""))
    (hmiss : SosRepository.findByIdempotencyKey k db = none)
    (hact : SosRepository.findActiveByUserId u db = none) :
    ∃ ev, (SosService.triggerSos env u input ctx db).outcome = .ok ev ∧
      (SosService.triggerSos env u input ctx
        ((SosService.triggerSos env u input ctx db).db)).outcome = .ok ev ∧
      (SosService.triggerSos env u input ctx
        ((SosService.triggerSos env u input ctx db).db)).db
        = (SosService.triggerSos env u input ctx db).db ∧
      ((SosService.triggerSos env u input ctx db).db.events.countP
        (fun e => e.idempotencyKey == some k)) = 1 ∧
      (SosService.triggerAfterReads env u input ctx
        (SosService.idemLookup input db) (SosRepository.findActiveByUserId u db)
        ((SosService.triggerSos env u input ctx db).db)).outcome
        = .raised (.uniqueViolation "idempotencyKey") := by
  have hidem : SosService.idemLookup input db = none := by
    simp [SosService.idemLookup, hk, hne, hmiss]
  have hold : ∀ e ∈ db.events, ¬ (e.idempotencyKey = some k) := by
    intro x hx
    simpa using List.find?_eq_none.mp hmiss x hx
  have hconf : SosRepository.keyConflict input.idempotencyKey db = false := by
    rw [hk]
    simp only [SosRepository.keyConflict]
    rw [List.any_eq_false]
    intro x hx
    simpa using hold x hx
  have h1 := triggerSos_success env u input ctx db hidem hact hconf
  have hfind2 : SosRepository.findByIdempotencyKey k
      (SosService.triggerSos env u input ctx db).db
      = some (SosService.newEvent env u input ctx db) := by
    rw [h1]
    exact findByIdempotencyKey_append k db.events _ hold
      (by simp [SosService.newEvent, hk]) _ rfl
  have h2 := triggerSos_idem_hit env u input ctx
    ((SosService.triggerSos env u input ctx db).db) k
    (SosService.newEvent env u input ctx db) hk hne hfind2
  refine ⟨SosService.newEvent env u input ctx db, ?_, ?_, ?_, ?_, ?_⟩
  · rw [h1]
  · rw [h2]
  · rw [h2]
  · rw [h1]
    show ((db.events ++ [SosService.newEvent env u input ctx db]).countP
      (fun e => e.idempotencyKey == some k)) = 1
    rw [List.countP_append]
    have h0 : db.events.countP (fun e => e.idempotencyKey == some k) = 0 := by
      refine List.countP_eq_zero.mpr ?_
      intro x hx
      simpa using hold x hx
    rw [h0]
    simp [SosService.newEvent, hk]
  · rw [hidem, hact, h1]
    have hconf2 : SosRepository.keyConflict input.idempotencyKey
        ({ events := db.events ++ [SosService.newEvent env u input ctx db]
           audits := db.audits ++
             [{ userId := u, action := "SOS_TRIGGERED", resourceId := db.nextId,
                correlationId := ctx.correlationId }]
           nextId := db.nextId + 1 } : SosDb) = true := by
      rw [hk]
      simp only [SosRepository.keyConflict]
      rw [List.any_eq_true]
      refine ⟨SosService.newEvent env u input ctx db, ?_, ?_⟩
      · exact List.mem_append_right _ (List.mem_singleton.mpr rfl)
      · simp [SosService.newEvent, hk]
    simp [SosService.triggerAfterReads, SosRepository.create, hconf2]

theorem c1_amended_witness :
    ∃ ev, (SosService.triggerSos emptyEnv 7 inputKeyed noCtx SosDb.empty).outcome = .ok ev ∧
      (SosService.triggerSos emptyEnv 7 inputKeyed noCtx
        ((SosService.triggerSos emptyEnv 7 inputKeyed noCtx SosDb.empty).db)).outcome = .ok ev ∧
      (SosService.triggerSos emptyEnv 7 inputKeyed noCtx
        ((SosService.triggerSos emptyEnv 7 inputKeyed noCtx SosDb.empty).db)).db
        = (SosService.triggerSos emptyEnv 7 inputKeyed noCtx SosDb.empty).db ∧
      ((SosService.triggerSos emptyEnv 7 inputKeyed noCtx SosDb.empty).db.events.countP
        (fun e => e.idempotencyKey == some "k")) = 1 ∧
      (SosService.triggerAfterReads emptyEnv 7 inputKeyed noCtx
        (SosService.idemLookup inputKeyed SosDb.empty)
        (SosRepository.findActiveByUserId 7 SosDb.empty)
        ((SosService.triggerSos emptyEnv 7 inputKeyed noCtx SosDb.empty).db)).outcome
        = .raised (.uniqueViolation "idempotencyKey") :=
  c1_amended emptyEnv 7 inputKeyed noCtx SosDb.empty "k" rfl (by decide) rfl rfl

-- =========================================================================
-- C9
-- =========================================================================

/-- A directory where user 7 has one primary contact (contact row 1, not
linked to any app user) and one linked, non-primary contact (contact row 2,
linked to app user 42). -/
def c9Env : SosEnv :=
  { primaryContacts := fun _ => [{ id := 1, name := "P", phoneNumber := "111",
                                   isPrimary := true, contactUserId := none }]
    contactsWithUser := fun _ => [{ id := 2, name := "L", phoneNumber := "222",
                                    isPrimary := false, contactUserId := some 42 }]
    notifyFails := false
    now := 0 }

def c9Run : SosResult := SosService.triggerSos c9Env 7 inputPlain noCtx SosDb.empty

/-- C9 counterexample: the realtime fan-out of a successful trigger goes
to the linked-contact user ids (here user 42), not to the primary-contact
recipients stored in the notifiedContacts snapshot (here contact 1): the
emitted set differs from anything derived from the snapshot. -/
theorem c9_counterexample :
    c9Run.emits = [([42], "sos:alert:start")] ∧
    c9Run.outcome.event?.map (fun e => e.notifiedContacts)
      = some [{ id := 1, name := "P", phoneNumber := "111" }] ∧
    (c9Env.primaryContacts 7).map (fun c => c.id) = [1] ∧
    (c9Env.primaryContacts 7).filterMap (fun c => c.contactUserId) = [] ∧
    ([42] : List Nat) ≠ [1] ∧ ([42] : List Nat) ≠ [] := by
  refine ⟨rfl, rfl, rfl, rfl, by decide, by decide⟩

/-- C9 amended: for a successful fresh trigger, the stored
notifiedRecipients snapshot is the primary-contact list resolved at
trigger time, while the fan-out is emitted to the linked user ids of the
subject's contacts (getContactsWithUser) — a list computed independently
of the snapshot. -/
theorem c9_amended (env : SosEnv) (u : Nat) (input : TriggerSosInput)
    (ctx : AuditContext) (db : SosDb)
    (hkey : ∀ k, input.idempotencyKey = some k →
      SosRepository.findByIdempotencyKey k db = none)
    (hact : SosRepository.findActiveByUserId u db = none) :
    ∃ ev, (SosService.triggerSos env u input ctx db).outcome = .ok ev ∧
      ev.notifiedContacts = (env.primaryContacts u).map
        (fun c => ({ id := c.id, name := c.name, phoneNumber := c.phoneNumber } : NotifiedContact)) ∧
      SosService.notifyRecipients env u
        = (env.contactsWithUser u).filterMap (fun c => c.contactUserId) ∧
      (env.notifyFails = false →
        (SosService.triggerSos env u input ctx db).emits
          = (if (SosService.notifyRecipients env u).isEmpty then []
             else [(SosService.notifyRecipients env u, "sos:alert:start")])) := by
  have hidem : SosService.idemLookup input db = none := by
    cases hik : input.idempotencyKey with
    | none => simp [SosService.idemLookup, hik]
    | some k =>
      by_cases hke : k = ""
      · simp [SosService.idemLookup, hik, hke]
      · simp [SosService.idemLookup, hik, hke, hkey k hik]
  have hconf : SosRepository.keyConflict input.idempotencyKey db = false := by
    cases hik : input.idempotencyKey with
    | none => simp [SosRepository.keyConflict]
    | some k =>
      simp only [SosRepository.keyConflict]
      rw [List.any_eq_false]
      intro x hx
      simpa using List.find?_eq_none.mp (hkey k hik) x hx
  have h1 := triggerSos_success env u input ctx db hidem hact hconf
  refine ⟨SosService.newEvent env u input ctx db, ?_, ?_, rfl, ?_⟩
  · rw [h1]
  · simp [SosService.newEvent]
  · intro hnf
    rw [h1]
    simp [hnf]

theorem c9_amended_witness :
    ∃ ev, (SosService.triggerSos c9Env 7 inputPlain noCtx SosDb.empty).outcome = .ok ev ∧
      ev.notifiedContacts = (c9Env.primaryContacts 7).map
        (fun c => ({ id := c.id, name := c.name, phoneNumber := c.phoneNumber } : NotifiedContact)) ∧
      SosService.notifyRecipients c9Env 7
        = (c9Env.contactsWithUser 7).filterMap (fun c => c.contactUserId) ∧
      (c9Env.notifyFails = false →
        (SosService.triggerSos c9Env 7 inputPlain noCtx SosDb.empty).emits
          = (if (SosService.notifyRecipients c9Env 7).isEmpty then []
             else [(SosService.notifyRecipients c9Env 7, "sos:alert:start")])) :=
  c9_amended c9Env 7 inputPlain noCtx SosDb.empty
    (fun k hk => absurd hk (by simp [inputPlain])) rfl

-- =========================================================================
-- Auth helper lemmas
-- =========================================================================

/-- A valid, unexpired signature verifies to the token's payload. -/
theorem verifyRefreshToken_ok (now : Int) (tok : Token)
    (hsig : tok.validSig = true) (hexp : now < tok.jwtExp) :
    verifyRefreshToken now tok = .ok ⟨tok.sub, tok.family⟩ := by
  simp only [verifyRefreshToken, hsig]
  rw [if_neg (by simp), if_neg (by omega)]

/-- After revokeFamily, every token of the family is revoked. -/
theorem revokeFamily_revoked (family : Nat) (db : AuthDb) :
    ∀ t ∈ (RefreshTokenRepository.revokeFamily family db).tokens,
      t.family = family → t.revoked = true := by
  intro t ht hf
  simp only [RefreshTokenRepository.revokeFamily, List.mem_map] at ht
  obtain ⟨y, hy, hxy⟩ := ht
  by_cases hyf : y.family = family
  · rw [← hxy]
    simp [hyf]
  · exfalso
    have : t = y := by rw [← hxy]; simp [hyf]
    rw [this] at hf
    exact hyf hf

/-- After revoke, every token with the revoked id is revoked. -/
theorem revoke_revoked (id : Nat) (db : AuthDb) :
    ∀ t ∈ (RefreshTokenRepository.revoke id db).tokens,
      t.id = id → t.revoked = true := by
  intro t ht hf
  simp only [RefreshTokenRepository.revoke, List.mem_map] at ht
  obtain ⟨y, hy, hxy⟩ := ht
  by_cases hyf : y.id = id
  · rw [← hxy]
    simp [hyf]
  · exfalso
    have : t = y := by rw [← hxy]; simp [hyf]
    rw [this] at hf
    exact hyf hf

/-- A rotate presenting a token whose stored row is revoked takes the
breach path: fail Revoked, family revoked. -/
theorem refreshTokens_breach (expSec now : Int) (tok : Token) (db : AuthDb)
    (st : StoredToken)
    (hsig : tok.validSig = true) (hexp : now < tok.jwtExp)
    (hfound : RefreshTokenRepository.findByToken tok.value db = some st)
    (hrev : st.revoked = true) :
    AuthService.refreshTokens expSec now tok db
      = (.failed .refreshTokenRevoked, RefreshTokenRepository.revokeFamily st.family db) := by
  simp [AuthService.refreshTokens, verifyRefreshToken_ok now tok hsig hexp,
    AuthService.rotateAfterRead, hfound, hrev]

-- =========================================================================
-- C3
-- =========================================================================

/-- C3: presenting a stored-but-revoked refresh token fails Revoked and
marks every token of its family revoked; afterwards any rotate presenting
any token of that family — in particular the most recently issued one —
also fails Revoked. -/
theorem c3_breach_family_revocation (expSec now : Int) (tok : Token)
    (db : AuthDb) (st : StoredToken)
    (hsig : tok.validSig = true) (hexp : now < tok.jwtExp)
    (hfound : RefreshTokenRepository.findByToken tok.value db = some st)
    (hrev : st.revoked = true) :
    AuthService.refreshTokens expSec now tok db
      = (.failed .refreshTokenRevoked, RefreshTokenRepository.revokeFamily st.family db) ∧
    (∀ t ∈ (RefreshTokenRepository.revokeFamily st.family db).tokens,
       t.family = st.family → t.revoked = true) ∧
    (∀ (expSec2 now2 : Int) (tok2 : Token) (st2 : StoredToken),
       tok2.validSig = true → now2 < tok2.jwtExp →
       RefreshTokenRepository.findByToken tok2.value
         (RefreshTokenRepository.revokeFamily st.family db) = some st2 →
       st2.family = st.family →
       (AuthService.refreshTokens expSec2 now2 tok2
         (RefreshTokenRepository.revokeFamily st.family db)).1
         = .failed .refreshTokenRevoked) := by
  refine ⟨refreshTokens_breach expSec now tok db st hsig hexp hfound hrev,
    revokeFamily_revoked st.family db, ?_⟩
  intro expSec2 now2 tok2 st2 hsig2 hexp2 hfound2 hfam2
  have hrev2 : st2.revoked = true :=
    revokeFamily_revoked st.family db st2
      (List.mem_of_find?_eq_some hfound2) hfam2
  rw [refreshTokens_breach expSec2 now2 tok2 _ st2 hsig2 hexp2 hfound2 hrev2]

/-- Store for the auth witnesses: user 5 holds family 7 with the original
token (id 1, value 10, already rotated away hence revoked) and its
successor (id 2, value 11, live). -/
def c3Db : AuthDb :=
  { tokens := [{ id := 1, token := 10, userId := 5, family := 7, expiresAt := 1000, revoked := true },
               { id := 2, token := 11, userId := 5, family := 7, expiresAt := 2000, revoked := false }]
    users := [5]
    nextId := 3 }

def c3Old : Token := { value := 10, sub := 5, family := 7, jwtExp := 1000, validSig := true }

def c3New : Token := { value := 11, sub := 5, family := 7, jwtExp := 2000, validSig := true }

theorem c3_breach_family_revocation_witness :
    AuthService.refreshTokens 600 100 c3Old c3Db
      = (.failed .refreshTokenRevoked, RefreshTokenRepository.revokeFamily 7 c3Db) ∧
    (∀ t ∈ (RefreshTokenRepository.revokeFamily 7 c3Db).tokens,
       t.family = 7 → t.revoked = true) ∧
    (AuthService.refreshTokens 600 200 c3New
        (RefreshTokenRepository.revokeFamily 7 c3Db)).1
      = .failed .refreshTokenRevoked := by
  have h := c3_breach_family_revocation 600 100 c3Old c3Db
    { id := 1, token := 10, userId := 5, family := 7, expiresAt := 1000, revoked := true }
    rfl (by decide) rfl rfl
  exact ⟨h.1, h.2.1, h.2.2 600 200 c3New
    { id := 2, token := 11, userId := 5, family := 7, expiresAt := 2000, revoked := true }
    rfl (by decide) rfl rfl⟩

-- =========================================================================
-- C10
-- =========================================================================

/-- C10: when the presented token verifies, is found, unrevoked and
unexpired, but no user row exists for the JWT's subject, the call returns
NotFound — after having already revoked the presented token, so the store
is mutated and the caller's refresh credential is dead. -/
theorem c10_user_missing_after_revoke (expSec now : Int) (tok : Token)
    (db : AuthDb) (st : StoredToken)
    (hsig : tok.validSig = true) (hexp : now < tok.jwtExp)
    (hfound : RefreshTokenRepository.findByToken tok.value db = some st)
    (hrev : st.revoked = false) (hnx : ¬ (st.expiresAt < now))
    (huser : db.users.contains tok.sub = false) :
    AuthService.refreshTokens expSec now tok db
      = (.failed (.notFound "User"), RefreshTokenRepository.revoke st.id db) ∧
    (∀ t ∈ (RefreshTokenRepository.revoke st.id db).tokens,
       t.id = st.id → t.revoked = true) := by
  have husers2 : tok.sub ∉ (RefreshTokenRepository.revoke st.id db).users := by
    have : (RefreshTokenRepository.revoke st.id db).users.contains tok.sub = false := huser
    simpa using this
  constructor
  · simp [AuthService.refreshTokens, verifyRefreshToken_ok now tok hsig hexp,
      AuthService.rotateAfterRead, hfound, hrev, hnx, husers2]
  · exact revoke_revoked st.id db

/-- Store with one live token whose subject (user 6) has no user row. -/
def c10Db : AuthDb :=
  { tokens := [{ id := 1, token := 10, userId := 6, family := 7, expiresAt := 1000, revoked := false }]
    users := []
    nextId := 2 }

def c10Tok : Token := { value := 10, sub := 6, family := 7, jwtExp := 1000, validSig := true }

theorem c10_user_missing_after_revoke_witness :
    AuthService.refreshTokens 600 100 c10Tok c10Db
      = (.failed (.notFound "User"), RefreshTokenRepository.revoke 1 c10Db) ∧
    (∀ t ∈ (RefreshTokenRepository.revoke 1 c10Db).tokens,
       t.id = 1 → t.revoked = true) :=
  c10_user_missing_after_revoke 600 100 c10Tok c10Db
    { id := 1, token := 10, userId := 6, family := 7, expiresAt := 1000, revoked := false }
    rfl (by decide) rfl rfl (by decide) rfl

-- =========================================================================
-- C5
-- =========================================================================

/-- Store with one unrevoked token whose stored expiresAt (0) is long past
while its JWT expiry (1000) is still ahead of the clock (500). -/
def c5Db : AuthDb :=
  { tokens := [{ id := 1, token := 10, userId := 5, family := 7, expiresAt := 0, revoked := false }]
    users := [5]
    nextId := 2 }

def c5Tok : Token := { value := 10, sub := 5, family := 7, jwtExp := 1000, validSig := true }

/-- C5 counterexample: the storage-level expiry branch of refreshTokens
(`storedToken.expiresAt < new Date()`) returns RefreshTokenRevokedError —
the same error used for absent or revoked tokens — not a distinct Expired
error: here the stored row is found, unrevoked and past its stored expiry,
and the call fails Revoked. -/
theorem c5_counterexample :
    AuthService.refreshTokens 600 500 c5Tok c5Db
      = (.failed .refreshTokenRevoked, c5Db) ∧
    AuthErr.refreshTokenRevoked ≠ AuthErr.tokenExpired ∧
    (AuthService.refreshTokens 600 500 c5Tok c5Db).1 ≠ .failed .tokenExpired ∧
    (AuthService.refreshTokens 600 500 c5Tok c5Db).1 ≠ .thrown .tokenExpired := by
  refine ⟨rfl, by decide, by decide, by decide⟩

/-- C5 amended: a presented credential whose embedded JWT expiry has
passed fails with the distinct TokenExpiredError, thrown by signature
verification before any storage read; but the storage-level expiry check
— stored row found, unrevoked, stored expiresAt past, JWT still valid —
fails with the same RefreshTokenRevokedError used for absent or revoked
tokens, and leaves the store unchanged in both cases. -/
theorem c5_amended (expSec now : Int) (tok : Token) (db : AuthDb)
    (st : StoredToken) :
    (tok.validSig = true → tok.jwtExp ≤ now →
       AuthService.refreshTokens expSec now tok db = (.thrown .tokenExpired, db)) ∧
    (tok.validSig = true → now < tok.jwtExp →
       RefreshTokenRepository.findByToken tok.value db = some st →
       st.revoked = false → st.expiresAt < now →
       AuthService.refreshTokens expSec now tok db = (.failed .refreshTokenRevoked, db)) := by
  constructor
  · intro hsig hexp
    have hver : verifyRefreshToken now tok = .error .tokenExpired := by
      simp only [verifyRefreshToken, hsig]
      rw [if_neg (by simp), if_pos hexp]
    simp [AuthService.refreshTokens, hver]
  · intro hsig hexp hfound hrev hx
    simp [AuthService.refreshTokens, verifyRefreshToken_ok now tok hsig hexp,
      AuthService.rotateAfterRead, hfound, hrev, hx]

def c5TokLate : Token := { value := 10, sub := 5, family := 7, jwtExp := 400, validSig := true }

theorem c5_amended_witness :
    AuthService.refreshTokens 600 500 c5TokLate c5Db = (.thrown .tokenExpired, c5Db) ∧
    AuthService.refreshTokens 600 500 c5Tok c5Db = (.failed .refreshTokenRevoked, c5Db) :=
  ⟨(c5_amended 600 500 c5TokLate c5Db
      { id := 1, token := 10, userId := 5, family := 7, expiresAt := 0, revoked := false }).1
      rfl (by decide),
   (c5_amended 600 500 c5Tok c5Db
      { id := 1, token := 10, userId := 5, family := 7, expiresAt := 0, revoked := false }).2
      rfl (by decide) rfl rfl (by decide)⟩

-- =========================================================================
-- C4
-- =========================================================================

/-- Store with one live token of user 5, family 7, and its credential. -/
def c4Db : AuthDb :=
  { tokens := [{ id := 1, token := 10, userId := 5, family := 7, expiresAt := 1000, revoked := false }]
    users := [5]
    nextId := 2 }

def c4Tok : Token := { value := 10, sub := 5, family := 7, jwtExp := 1000, validSig := true }

/-- C4: the revoke of the presented token and the insert of its successor
are two separate storage operations (two awaits, no transaction), so under
the interleaving in which both calls read the stored row before either
writes, BOTH rotations succeed and the family ends with two live tokens —
the claimed atomicity fails.  Sequentially the guard does work: a second
rotate presenting the same credential after the first completed takes the
breach path. -/
theorem c4_double_rotation_race :
    (AuthService.refreshTokensRace2 600 100 c4Tok c4Db).1.1.isOk = true ∧
    (AuthService.refreshTokensRace2 600 100 c4Tok c4Db).1.2.isOk = true ∧
    (AuthService.refreshTokensRace2 600 100 c4Tok c4Db).2.tokens.countP
        (fun t => t.family == 7 && !t.revoked) = 2 ∧
    (AuthService.refreshTokens 600 100 c4Tok
        ((AuthService.refreshTokens 600 100 c4Tok c4Db).2)).1
      = .failed .refreshTokenRevoked := by
  refine ⟨rfl, rfl, rfl, rfl⟩

end BlinkEngine
